import Mathlib

/-!
Shallow embedding of `src/tendril/structures/parsers/psl.py` (tendril-structures-psl).

The Python parser reads a "Parts Structure List" file: a fixed metadata block,
a CSV header line, and level-annotated data rows, and rebuilds the hierarchy as
a tree of entities.  Python exceptions are modelled with `Except PslError`;
the csv reader is modelled as a list of records (each a list of string cells)
consumed in order; `logger.warn` calls are collected into a list of warning
strings; the validation sink is a list of structured errors.

External collaborators (`tendril.entities.base.GenericEntity`,
`tendril.structures.containers.BasicContainer`,
`tendril.validation.columns.ColumnsRequiredPolicy`) are not part of this
repository's sources; their behaviour is modelled from the spec's collaborator
contracts, and each such definition is marked `Modelled from the spec:`.
-/

namespace TendrilPsl

/-- The Python exceptions and assertion failures the parser can raise. -/
inductive PslError where
  /-- `self._active_parents[level - 1]` with the key absent (Python `KeyError`). -/
  | keyErrorI (k : Int)
  /-- dictionary lookup `line[x]` / `self._meta_data[x]` with the key absent. -/
  | keyErrorS (k : String)
  /-- `parents[0]` on an empty list (Python `IndexError`). -/
  | indexError
  /-- `int(...)` on a non-numeric string, or tuple unpacking of a value of the
      wrong shape (Python `ValueError`). -/
  | valueError
  /-- unpacking or iterating `None` (Python `TypeError`). -/
  | typeError
  /-- `len(line_entities) / len(parents)` with no parents (Python `ZeroDivisionError`). -/
  | zeroDivisionError
  /-- `assert parents[0].ident == parent_ident` failing. -/
  | assertParentMismatch
  /-- `assert len(parents) * per_parent == len(line_entities)` failing. -/
  | assertUneven
  /-- `tendril.entities.base.EntityHasNoStructure` raised by `insert`. -/
  | entityHasNoStructure
  /-- `MetadataParseException("Found {0}, Expected {1}")`. -/
  | metadataParse (found expected : String)
  /-- `next(...)` on an exhausted reader (Python `StopIteration`). -/
  | stopIteration
deriving Repr, DecidableEq

/-- Modelled from the spec: an entity (`tendril.entities.base.GenericEntity`,
not under src/) has an identity string, a description, an optional reference
designator, an optional domain tag, and optionally owns a Structure (a
container holding its children; `BasicContainer` is modelled by its ordered
contents).  `define(ident, desc, refdes, domain?)` is modelled by direct
construction. -/
structure GenericEntity where
  ident : String
  desc : String
  refdes : Option String
  domain : Option String
  structure? : Option (List GenericEntity)
deriving Repr

/-- One token of a Python format template: literal text or a positional
placeholder.  `"{0}r{1}"` is `[arg 0, lit "r", arg 1]`; the auto-numbered
`"{}"` is `[arg 0]`. -/
inductive FmtTok where
  | lit (s : String)
  | arg (i : Nat)
deriving Repr, DecidableEq

abbrev Fmt := List FmtTok

/-- `fmt.format(*args)` for the templates used by the parser (every placeholder
index is in range in all the source's specs). -/
def formatWith (f : Fmt) (args : List String) : String :=
  f.foldl (fun acc t =>
    acc ++ match t with
           | .lit s => s
           | .arg i => args.getD i "") ""

/-- Python `str.strip()`: drop leading and trailing whitespace. -/
def pyStrip (s : String) : String :=
  ⟨((s.data.dropWhile Char.isWhitespace).reverse.dropWhile Char.isWhitespace).reverse⟩

/-- Decimal digits to a number, most significant digit first. -/
def digitsToNat (cs : List Char) : Nat :=
  cs.foldl (fun n c => n * 10 + (c.toNat - '0'.toNat)) 0

/-- Python `int(s)`: strip surrounding whitespace, accept an optional sign
followed by decimal digits; `none` models `ValueError`. -/
def pyInt? (s : String) : Option Int :=
  match (pyStrip s).data with
  | [] => none
  | '-' :: rest =>
      if !rest.isEmpty && rest.all Char.isDigit
      then some (-(Int.ofNat (digitsToNat rest))) else none
  | '+' :: rest =>
      if !rest.isEmpty && rest.all Char.isDigit
      then some (Int.ofNat (digitsToNat rest)) else none
  | c :: rest =>
      if (c :: rest).all Char.isDigit
      then some (Int.ofNat (digitsToNat (c :: rest))) else none

/-- `IdentSpec = namedtuple("IdentSpec", "domain, fmt, parts")`. -/
structure IdentSpec where
  domain : String
  fmt : Fmt
  parts : List String
deriving Repr, DecidableEq

/-- `ParseSpec = namedtuple("ParseSpec", "fmt, parts")`. -/
structure ParseSpec where
  fmt : Fmt
  parts : List String
deriving Repr, DecidableEq

/-- A candidate spec handed to `_extract_composite_value`: the source
dispatches on `isinstance(option, IdentSpec)`. -/
inductive CompositeSpec where
  | ofIdent (s : IdentSpec)
  | ofParse (s : ParseSpec)
deriving Repr, DecidableEq

def CompositeSpec.fmt : CompositeSpec → Fmt
  | .ofIdent s => s.fmt
  | .ofParse s => s.fmt

def CompositeSpec.parts : CompositeSpec → List String
  | .ofIdent s => s.parts
  | .ofParse s => s.parts

/-- What `_extract_composite_value` returns for a successful candidate:
`(candidate, option.domain)` for an `IdentSpec`, the bare string for a
`ParseSpec`. -/
inductive ExtractedValue where
  | withDomain (v domain : String)
  | bare (v : String)
deriving Repr, DecidableEq

def CompositeSpec.result : CompositeSpec → String → ExtractedValue
  | .ofIdent s, c => .withDomain c s.domain
  | .ofParse _, c => .bare c

/-- A data row projected to a mapping from column name to cell value
(`dict(zip(self._columns, line))`); `none` models a missing key. -/
abbrev Row := String → Option String

/-- `line[k]` on the row mapping; raises `KeyError` when absent. -/
def lookupField (line : Row) (k : String) : Except PslError String :=
  match line k with
  | some v => .ok v
  | none => .error (.keyErrorS k)

/-- `PslParserLineReader._extract_composite_value`: try each candidate in
order; format its template with the named row fields, strip, and return the
first non-empty result (with the domain tag when the candidate is an
`IdentSpec`).  Falls off the loop with `None` when no candidate matches. -/
def extractCompositeValue (line : Row) :
    List CompositeSpec → Except PslError (Option ExtractedValue)
  | [] => .ok none
  | option :: options => do
      let args ← option.parts.mapM (lookupField line)
      let candidate := pyStrip (formatWith option.fmt args)
      if candidate ≠ "" then
        .ok (some (option.result candidate))
      else
        extractCompositeValue line options

/-- The per-format configuration: the class attributes of `PslParserBase` /
`PslParserLineReader` and the tables its subclasses override. -/
structure PslVariant where
  meta : List String
  ownerIdentName : ParseSpec
  ownerDescName : ParseSpec
  identName : List CompositeSpec
  parentIdentName : List CompositeSpec
  expectedColumns : List String
  handleQty : Bool
  levelName : String
  qtyName : String
  refdesName : String
  descName : String
  typeName : String
  typeAssembly : String
  typePart : String
deriving Repr

def extractIdent (v : PslVariant) (line : Row) : Except PslError (Option ExtractedValue) :=
  extractCompositeValue line v.identName

def extractParentIdent (v : PslVariant) (line : Row) : Except PslError (Option ExtractedValue) :=
  extractCompositeValue line v.parentIdentName

/-- `PslParserLineReader._generate_line_entities`: extract the row identity and
domain (unpacking `None` is a `TypeError`; all configured ident candidates are
`IdentSpec`s, so a bare-string result is modelled as the unpacking
`ValueError`), read the quantity (from the qty column when the variant handles
quantity, else 1), and synthesize one entity per unit, suffixing the reference
designator with `chr(ord('a') + i)` when qty > 1, attaching a fresh container
when the row's type field equals the assembly marker. -/
def generateLineEntities (v : PslVariant) (line : Row) :
    Except PslError (List GenericEntity) := do
  let ev ← extractIdent v line
  let (line_ident, domain) ← match ev with
    | some (.withDomain c d) => Except.ok (c, d)
    | some (.bare _) => Except.error PslError.valueError
    | none => Except.error PslError.typeError
  let qty ← if v.handleQty then do
      let s ← lookupField line v.qtyName
      match pyInt? s with
      | some n => Except.ok n
      | none => Except.error PslError.valueError
    else Except.ok (1 : Int)
  (List.range qty.toNat).mapM (fun i => do
    let baseRefdes ← lookupField line v.refdesName
    let refdes := if qty > 1
      then baseRefdes ++ String.singleton (Char.ofNat ('a'.toNat + i))
      else baseRefdes
    let descVal ← lookupField line v.descName
    let typeVal ← lookupField line v.typeName
    Except.ok { ident := line_ident
                desc := descVal
                refdes := some refdes
                domain := some domain
                structure? := if typeVal = v.typeAssembly then some [] else none
                : GenericEntity })

/-- Modelled from the spec: `parent.insert(entity)`
(`tendril.entities.base.GenericEntity.insert`, not under src/) appends the
child to the parent's Structure, and fails with the typed
`EntityHasNoStructure` condition when the parent lacks a Structure. -/
def insertChild (parent child : GenericEntity) : Except PslError GenericEntity :=
  match parent.structure? with
  | none => .error .entityHasNoStructure
  | some children => .ok { parent with structure? := some (children ++ [child]) }

def noStructureWarning (parent : GenericEntity) : String :=
  "Adding structure to entity " ++ parent.ident ++ " with status CO"

/-- The `try: parent.insert(entity) except EntityHasNoStructure:` block of
`_insert_line_entities`: on the no-structure condition, log a warning, attach
a fresh container to the parent, and retry the insertion. -/
def tryInsert (parent entity : GenericEntity) :
    Except PslError (GenericEntity × List String) :=
  match insertChild parent entity with
  | .ok p => .ok (p, [])
  | .error .entityHasNoStructure =>
      match insertChild { parent with structure? := some [] } entity with
      | .ok p => .ok (p, [noStructureWarning parent])
      | .error e => .error e
  | .error e => .error e

/-- The inner loop of `_insert_line_entities`: insert a contiguous block of
entities into one parent, accumulating logged warnings. -/
def insertBlock : GenericEntity → List GenericEntity →
    Except PslError (GenericEntity × List String)
  | parent, [] => .ok (parent, [])
  | parent, e :: es => do
      let (p1, w1) ← tryInsert parent e
      let (p2, w2) ← insertBlock p1 es
      .ok (p2, w1 ++ w2)

/-- The outer loop of `_insert_line_entities`: parent at index `pidx` receives
`line_entities[pidx * per_parent + eidx]` for `eidx in range(per_parent)`,
i.e. the block `(line_entities.drop (pidx * per_parent)).take per_parent`. -/
def insertBlocks (line_entities : List GenericEntity) (per_parent : Nat) :
    List GenericEntity → Nat → Except PslError (List GenericEntity × List String)
  | [], _ => .ok ([], [])
  | parent :: rest, pidx => do
      let (p1, w1) ← insertBlock parent
        ((line_entities.drop (pidx * per_parent)).take per_parent)
      let (ps, w2) ← insertBlocks line_entities per_parent rest (pidx + 1)
      .ok (p1 :: ps, w1 ++ w2)

/-- `PslParserLineReader._insert_line_entities`.  `per_parent =
int(len(line_entities) / len(parents))` is floor division (modelled on `Nat`),
a `ZeroDivisionError` when there are no parents; the `assert` requires the
division to be even.  Returns the updated parents (the Python code mutates the
parent objects in place) together with the logged warnings. -/
def insertLineEntities (line_entities parents : List GenericEntity) :
    Except PslError (List GenericEntity × List String) :=
  if parents.length = 0 then .error .zeroDivisionError
  else
    let per_parent := line_entities.length / parents.length
    if parents.length * per_parent = line_entities.length then
      insertBlocks line_entities per_parent parents 0
    else
      .error .assertUneven

/-- The mutable parser state: `self._active_parents` (a dict from level to the
list of entities at that level, modelled as an association list) together with
the warnings logged so far. -/
structure ParserState where
  activeParents : List (Int × List GenericEntity)
  warnings : List String
deriving Repr

/-- Dictionary lookup on the active-parent table. -/
def lookupAP : List (Int × List GenericEntity) → Int → Option (List GenericEntity)
  | [], _ => none
  | (k, v) :: rest, key => if k = key then some v else lookupAP rest key

/-- Dictionary assignment `self._active_parents[key] = v`. -/
def setAP : List (Int × List GenericEntity) → Int → List GenericEntity →
    List (Int × List GenericEntity)
  | [], key, v => [(key, v)]
  | (k, w) :: rest, key, v =>
      if k = key then (key, v) :: rest else (k, w) :: setAP rest key v

/-- The Python comparison `parents[0].ident == parent_ident`, where
`parent_ident` is the raw result of `_extract_parent_ident` (a bare string for
a matched `ParseSpec`, `None` when no candidate matched, a tuple for an
`IdentSpec`): comparing a string against `None` or a tuple is `False`, not an
error. -/
def pyEqIdent (ident : String) (parent_ident : Option ExtractedValue) : Bool :=
  match parent_ident with
  | some (.bare v) => ident = v
  | _ => false

/-- `assert parents[0].ident == parent_ident` (only evaluated when
`level > 0`): `parents[0]` on an empty list is an `IndexError`, a failed
comparison an `AssertionError`. -/
def checkParent (parents : List GenericEntity) (parent_ident : Option ExtractedValue) :
    Except PslError Unit :=
  match parents with
  | [] => .error .indexError
  | p0 :: _ =>
      if pyEqIdent p0.ident parent_ident then .ok () else .error .assertParentMismatch

/-- `int(line[self._level_name])` and friends. -/
def pyIntE (s : String) : Except PslError Int :=
  match pyInt? s with
  | some n => .ok n
  | none => .error .valueError

/-- `PslParserLineReader._process_line`: extract the parent identity, read the
level, fetch the active parents at `level - 1` (KeyError when absent), check
parent consistency when `level > 0`, generate and insert the line entities,
and update the active-parent table.  The Python code mutates the parent
objects in place, so the `level - 1` slot is written back with the updated
parents before `self._active_parents[level] = line_entities`. -/
def processLine (v : PslVariant) (st : ParserState) (line : Row) :
    Except PslError ParserState := do
  let parent_ident ← extractParentIdent v line
  let level ← pyIntE (← lookupField line v.levelName)
  let parents ← match lookupAP st.activeParents (level - 1) with
    | some ps => Except.ok ps
    | none => Except.error (PslError.keyErrorI (level - 1))
  if level > 0 then checkParent parents parent_ident
  let line_entities ← generateLineEntities v line
  let (parents2, ws) ← insertLineEntities line_entities parents
  let aps := setAP st.activeParents (level - 1) parents2
  Except.ok { activeParents := setAP aps level line_entities
              warnings := st.warnings ++ ws }

/-- `PslParserCSV._read_meta_line`: `rtitle, rvalue = next(meta_reader)`
(StopIteration on an exhausted reader, ValueError unpacking a record that is
not a two-cell row), then `assert rtitle == title`, re-raised as
`MetadataParseException("Found {0}, Expected {1}".format(rtitle, title))`. -/
def readMetaLine (records : List (List String)) (title : String) :
    Except PslError (String × List (List String)) :=
  match records with
  | [] => .error .stopIteration
  | [rtitle, rvalue] :: rest =>
      if rtitle = title then .ok (rvalue, rest)
      else .error (.metadataParse rtitle title)
  | _ :: _ => .error .valueError

/-- `PslParserCSV._read_meta`: for each expected label in declared order, read
one line and record `self._meta_data[meta]`; returns the metadata mapping and
the records left for the body reader (both csv readers share the file
position). -/
def readMeta : List String → List (List String) →
    Except PslError (List (String × String) × List (List String))
  | [], records => .ok ([], records)
  | title :: titles, records => do
      let (value, rest) ← readMetaLine records title
      let (md, rest2) ← readMeta titles rest
      .ok ((title, value) :: md, rest2)

/-- Lookup in the metadata mapping (`self._meta_data[x]`). -/
def lookupMD : List (String × String) → String → Option String
  | [], _ => none
  | (k, v) :: rest, key => if k = key then some v else lookupMD rest key

/-- `fmt.format(*[self._meta_data[x] for x in parts])`. -/
def applyParseSpec (spec : ParseSpec) (md : List (String × String)) :
    Except PslError String := do
  let args ← spec.parts.mapM (fun x =>
    match lookupMD md x with
    | some v => Except.ok v
    | none => Except.error (PslError.keyErrorS x))
  .ok (formatWith spec.fmt args)

/-- `PslParserBase._process_meta`: derive `owner_ident` and `owner_desc` from
the metadata via the variant's owner ParseSpecs. -/
def processMeta (v : PslVariant) (md : List (String × String)) :
    Except PslError (String × String) := do
  let owner_ident ← applyParseSpec v.ownerIdentName md
  let owner_desc ← applyParseSpec v.ownerDescName md
  .ok (owner_ident, owner_desc)

/-- `PslParserBase._create_owner`: a fresh entity defined with the owner
identity and description, no refdes, and a fresh `BasicContainer` as its
structure. -/
def createOwner (owner_ident owner_desc : String) : GenericEntity :=
  { ident := owner_ident
    desc := owner_desc
    refdes := none
    domain := none
    structure? := some [] }

/-- A structured error delivered to the validation sink. -/
inductive ValidationError where
  /-- `tendril.validation.columns.RequiredColumnMissingError`, naming the
      missing columns. -/
  | requiredColumnMissing (columns : List String)
deriving Repr, DecidableEq

/-- Modelled from the spec: `ColumnsRequiredPolicy.check`
(`tendril.validation.columns`, not under src/) verifies that every required
column name is present in the header (order-independent, exact string match)
and reports the missing columns in a `RequiredColumnMissingError`. -/
def missingColumns (required columns : List String) : List String :=
  required.filter (fun c => !(columns.contains c))

/-- `dict(zip(self._columns, line))`: zip truncates at the shorter list, and a
later duplicate column silently overwrites an earlier one. -/
def dictZip (columns cells : List String) : Row :=
  fun key =>
    (columns.zip cells).foldl (fun acc p => if p.1 = key then some p.2 else acc) none

/-- The `for line in reader: self._parse_line(line)` loop of `parse()`, with
`PslParserCSV._parse_line` projecting each record through the stored header. -/
def processLines (v : PslVariant) (columns : List String) :
    ParserState → List (List String) → Except PslError ParserState
  | st, [] => .ok st
  | st, cells :: rest => do
      let st2 ← processLine v st (dictZip columns cells)
      processLines v columns st2 rest

/-- `self._active_parents[-1] = [self._owner]`: the owner seeded as the sole
occupant of the root slot, with no warnings logged yet. -/
def initialState (owner : GenericEntity) : ParserState :=
  ⟨[(-1, [owner])], []⟩

/-- The observable outcome of one `parse()` call: the returned owner or the
escaping exception, the contents of the validation sink, the warnings logged,
and whether `psl.close()` was reached. -/
structure ParseResult where
  result : Except PslError (Option GenericEntity)
  validationErrors : List ValidationError
  warnings : List String
  closed : Bool
deriving Repr

def columnsWarning (psl_path : String) : String :=
  "Expected Columns Not Found in Provided PSL. Not Parsing : " ++ psl_path

/-- `PslParserLineReader.parse` as specialised by `PslParserCSV`: read the
metadata block, derive the owner identity and description, read the header row
and check the required columns, create and seed the owner, then process the
body rows.  When the column check fails, `_check_columns` adds the error to
the validation sink, `_prep_reader` logs a warning and returns `None`, and
`parse()` then iterates `None`: a `TypeError` escapes (after `_create_owner`
ran) and `psl.close()` is never reached.  `psl.close()` is also skipped when
any exception escapes the body loop.  On success the code returns
`self._owner`, the (in-place mutated) entity seeded at slot `-1`. -/
def parse (v : PslVariant) (psl_path : String) (records : List (List String)) :
    ParseResult :=
  match readMeta v.meta records with
  | .error e => ⟨.error e, [], [], false⟩
  | .ok (md, rest) =>
    match processMeta v md with
    | .error e => ⟨.error e, [], [], false⟩
    | .ok (owner_ident, owner_desc) =>
      match rest with
      | [] => ⟨.error .stopIteration, [], [], false⟩
      | columns :: body =>
        let missing := missingColumns v.expectedColumns columns
        if missing = [] then
          let owner := createOwner owner_ident owner_desc
          match processLines v columns (initialState owner) body with
          | .error e => ⟨.error e, [], [], false⟩
          | .ok st =>
              match lookupAP st.activeParents (-1) with
              | some (o :: _) => ⟨.ok (some o), [], st.warnings, true⟩
              | _ => ⟨.ok none, [], st.warnings, true⟩
        else
          ⟨.error .typeError, [.requiredColumnMissing missing],
           [columnsWarning psl_path], false⟩

/-- The `PslParserCSV` format variant's configuration tables. -/
def pslParserCSV : PslVariant :=
  { meta := ["ident", "revision", "description"]
    ownerIdentName := ⟨[.arg 0, .lit "r", .arg 1], ["ident", "revision"]⟩
    ownerDescName := ⟨[.arg 0], ["description"]⟩
    identName := [.ofIdent ⟨"cadfiles", [.arg 0, .lit " ", .arg 1], ["SDrawingNo", "SAlt"]⟩,
                  .ofIdent ⟨"materials", [.arg 0], ["Description"]⟩]
    parentIdentName := [.ofParse ⟨[.arg 0, .lit " ", .arg 1], ["DrawingNo", "Alt"]⟩]
    expectedColumns := ["level", "DrawingNo", "Alt", "refdes",
                        "SDrawingNo", "SAlt", "description", "type", "qty"]
    handleQty := false
    levelName := "level"
    qtyName := "qty"
    refdesName := "refdes"
    descName := "description"
    typeName := "type"
    typeAssembly := "Assembly"
    typePart := "Part" }

/-- The `PslParserTMIR` format variant's configuration tables. -/
def pslParserTMIR : PslVariant :=
  { meta := ["CCODE", "VERSION", "COACHNAME"]
    ownerIdentName := ⟨[.arg 0, .lit " v", .arg 1], ["CCODE", "VERSION"]⟩
    ownerDescName := ⟨[.arg 0], ["COACHNAME"]⟩
    identName := [.ofIdent ⟨"cadfiles", [.arg 0, .lit " ", .arg 1], ["SDrawingNo", "SAlt"]⟩,
                  .ofIdent ⟨"materials", [.arg 0], ["Description"]⟩]
    parentIdentName := [.ofParse ⟨[.arg 0, .lit " ", .arg 1], ["DrawingNo", "Alt"]⟩]
    expectedColumns := ["Page", "PsNo", "Lv", "DrawingNo", "Alt", "Item",
                        "SDrawingNo", "SAlt", "Description", "St", "QPC"]
    handleQty := false
    levelName := "Lv"
    qtyName := "QPC"
    refdesName := "Item"
    descName := "Description"
    typeName := "St"
    typeAssembly := "AS"
    typePart := "CO" }

/-- The abstract `PslParserLineReader` configuration (its `_ident_name`,
`_parent_ident_name` and `_handle_qty = True`), instantiated with the base
metadata tables and the field names of the spec's end-to-end scenario
(`level,parent,refdes,description,type,qty`), which the abstract class leaves
to subclasses. -/
def pslParserLineReaderCfg : PslVariant :=
  { meta := ["ident", "revision", "description"]
    ownerIdentName := ⟨[.arg 0, .lit "r", .arg 1], ["ident", "revision"]⟩
    ownerDescName := ⟨[.arg 0], ["description"]⟩
    identName := [.ofIdent ⟨"cadfiles", [.arg 0], ["ident"]⟩,
                  .ofIdent ⟨"materials", [.arg 0], ["description"]⟩]
    parentIdentName := [.ofParse ⟨[.arg 0], ["parent"]⟩]
    expectedColumns := ["level", "parent", "refdes", "description", "type", "qty"]
    handleQty := true
    levelName := "level"
    qtyName := "qty"
    refdesName := "refdes"
    descName := "description"
    typeName := "type"
    typeAssembly := "Assembly"
    typePart := "Part" }

/-! ### Derived views used to state the theorems -/

/-- The contents of an entity's Structure (empty when it has none). -/
def childrenOf (e : GenericEntity) : List GenericEntity :=
  e.structure?.getD []

/-- The contiguous block of entities assigned to the parent at index `pidx`:
`line_entities[pidx * per_parent + eidx]` for `eidx in range(per_parent)`. -/
def blockFor (line_entities : List GenericEntity) (per_parent pidx : Nat) :
    List GenericEntity :=
  (line_entities.drop (pidx * per_parent)).take per_parent

/-- One parent after its block of entities has been inserted: unchanged for an
empty block, otherwise its Structure (attached on demand when absent) gains
the block. -/
def afterInsert (p : GenericEntity) (block : List GenericEntity) : GenericEntity :=
  match block with
  | [] => p
  | _ :: _ => { p with structure? := some (childrenOf p ++ block) }

/-- The warnings logged while inserting a block into one parent: one promotion
warning when the parent lacked a Structure and the block is non-empty. -/
def blockWarnings (p : GenericEntity) (block : List GenericEntity) : List String :=
  match p.structure?, block with
  | none, _ :: _ => [noStructureWarning p]
  | _, _ => []

/-! ### Concrete inputs for witnesses and counterexamples -/

/-- A CSV file whose header lacks the required `qty` column. -/
def schemaMissingRecords : List (List String) :=
  [["ident", "R1"], ["revision", "A"], ["description", "Widget"],
   ["level", "DrawingNo", "Alt", "refdes", "SDrawingNo", "SAlt", "description", "type"]]

/-- A CSV file whose header lacks the required `refdes` column. -/
def leakRecords : List (List String) :=
  [["ident", "R1"], ["revision", "A"], ["description", "Widget"],
   ["level", "DrawingNo", "Alt", "SDrawingNo", "SAlt", "description", "type", "qty"]]

/-- A well-formed two-row CSV file: a level-0 assembly under the owner and a
level-1 part under it. -/
def goodRecords : List (List String) :=
  [["ident", "R1"], ["revision", "A"], ["description", "Widget"],
   ["level", "DrawingNo", "Alt", "refdes", "SDrawingNo", "SAlt", "description", "type", "qty"],
   ["0", "", "", "A1", "D100", "X", "Top Assembly", "Assembly", "1"],
   ["1", "D100", "X", "B1", "D200", "Y", "Sub Part", "Part", "1"]]

/-- The root entity `parse pslParserCSV "widget.csv" goodRecords` returns
(the level-0 child is held as inserted, before its own child arrived). -/
def goodRoot : GenericEntity :=
  { ident := "R1rA", desc := "Widget", refdes := none, domain := none,
    structure? := some [{ ident := "D100 X", desc := "Top Assembly",
                          refdes := some "A1", domain := some "cadfiles",
                          structure? := some [] }] }

/-- A quantity-2 row for the quantity-expanding line-reader configuration. -/
def qtyRow : Row := fun k =>
  if k = "ident" then some "BOLT-M3" else
  if k = "description" then some "Bolt" else
  if k = "refdes" then some "R1" else
  if k = "type" then some "Part" else
  if k = "qty" then some "2" else
  if k = "level" then some "1" else
  if k = "parent" then some "X" else none

/-- A leaf entity with no Structure. -/
def tinyEnt (s : String) : GenericEntity :=
  { ident := s, desc := "", refdes := none, domain := none, structure? := none }

/-- An assembly entity with an empty Structure. -/
def tinyAsm (s : String) : GenericEntity :=
  { ident := s, desc := "", refdes := none, domain := none, structure? := some [] }

/-- A level-0 entity that is the active parent at level 0. -/
def mismatchParent : GenericEntity :=
  { ident := "D100 X", desc := "Top Assembly", refdes := some "A1",
    domain := some "cadfiles", structure? := some [] }

/-- A parser state where the owner occupies the root slot and `mismatchParent`
is the active parent at level 0. -/
def mismatchState : ParserState :=
  ⟨[(-1, [createOwner "R1rA" "Widget"]), (0, [mismatchParent])], []⟩

/-- A level-1 CSV row whose parent columns name `D999 Z`, which is not the
identity `D100 X` of the active level-0 parent. -/
def mismatchRow : Row := fun k =>
  if k = "level" then some "1" else
  if k = "DrawingNo" then some "D999" else
  if k = "Alt" then some "Z" else
  if k = "refdes" then some "B1" else
  if k = "SDrawingNo" then some "D200" else
  if k = "SAlt" then some "Y" else
  if k = "description" then some "Sub Part" else
  if k = "type" then some "Part" else
  if k = "qty" then some "1" else none

/-- A level-0 CSV row with empty parent columns. -/
def level0RowA : Row := fun k =>
  if k = "level" then some "0" else
  if k = "DrawingNo" then some "" else
  if k = "Alt" then some "" else
  if k = "refdes" then some "A1" else
  if k = "SDrawingNo" then some "D100" else
  if k = "SAlt" then some "X" else
  if k = "description" then some "Top Assembly" else
  if k = "type" then some "Assembly" else
  if k = "qty" then some "1" else none

/-- The same level-0 row with a garbage parent column that disagrees with the
owner's identity. -/
def level0RowB : Row := fun k =>
  if k = "DrawingNo" then some "GARBAGE" else level0RowA k

/-- The parents after `_insert_line_entities`, parent by parent: the parent at
offset `j` gains the block at index `pidx + j`. -/
def afterInsertAll (ents : List GenericEntity) (pp : Nat) :
    List GenericEntity → Nat → List GenericEntity
  | [], _ => []
  | p :: ps, pidx => afterInsert p (blockFor ents pp pidx) :: afterInsertAll ents pp ps (pidx + 1)

/-- The invariant the builder maintains on the active-parent table: every slot
sits at level `-1` or deeper into the hierarchy, and the root slot `-1` holds a
non-empty list headed by an entity carrying the owner identity and
description. -/
def rootInv (I D : String) (st : ParserState) : Prop :=
  (∀ p ∈ st.activeParents, -1 ≤ p.1) ∧
  ∃ o rest, lookupAP st.activeParents (-1) = some (o :: rest) ∧
    o.ident = I ∧ o.desc = D

/-! ## Helper lemmas -/

@[simp]
theorem bindE_ok {ε α β : Type} (a : α) (f : α → Except ε β) :
    (Except.ok a >>= f) = f a := rfl

@[simp]
theorem bindE_error {ε α β : Type} (e : ε) (f : α → Except ε β) :
    ((Except.error e : Except ε α) >>= f) = .error e := rfl

theorem mapM_ok_of_forall {ε : Type} {α β : Type} (l : List α) (f : α → Except ε β)
    (g : α → β) (h : ∀ a ∈ l, f a = .ok (g a)) : l.mapM f = .ok (l.map g) := by
  induction l with
  | nil => rfl
  | cons a t ih =>
      rw [List.mapM_cons, h a (List.mem_cons_self a t),
        ih (fun x hx => h x (List.mem_cons_of_mem a hx))]
      rfl

theorem mapM_error_mem {ε : Type} {α β : Type} (l : List α) (f : α → Except ε β)
    (e : ε) (h : l.mapM f = .error e) : ∃ a ∈ l, f a = .error e := by
  induction l with
  | nil => simp [List.mapM.loop, pure, Except.pure] at h
  | cons a t ih =>
      rw [List.mapM_cons] at h
      cases ha : f a with
      | error e2 =>
          rw [ha] at h
          simp only [bindE_error, Except.error.injEq] at h
          exact ⟨a, List.mem_cons_self a t, by rw [ha, h]⟩
      | ok b =>
          rw [ha] at h
          simp only [bindE_ok] at h
          cases ht : t.mapM f with
          | error e2 =>
              rw [ht] at h
              simp only [bindE_error, Except.error.injEq] at h
              obtain ⟨x, hx, hfx⟩ := ih (by rw [ht, h])
              exact ⟨x, List.mem_cons_of_mem a hx, hfx⟩
          | ok bs => rw [ht] at h; simp [pure, Except.pure] at h

theorem insertChild_some (p c : GenericEntity) (cs : List GenericEntity)
    (h : p.structure? = some cs) :
    insertChild p c = .ok { p with structure? := some (cs ++ [c]) } := by
  unfold insertChild
  rw [h]

theorem insertChild_none (p c : GenericEntity) (h : p.structure? = none) :
    insertChild p c = .error .entityHasNoStructure := by
  unfold insertChild
  rw [h]

theorem tryInsert_some (p c : GenericEntity) (cs : List GenericEntity)
    (h : p.structure? = some cs) :
    tryInsert p c = .ok ({ p with structure? := some (cs ++ [c]) }, []) := by
  unfold tryInsert
  rw [insertChild_some p c cs h]

theorem tryInsert_none (p c : GenericEntity) (h : p.structure? = none) :
    tryInsert p c = .ok ({ p with structure? := some [c] }, [noStructureWarning p]) := by
  unfold tryInsert
  rw [insertChild_none p c h]
  have : insertChild { p with structure? := some ([] : List GenericEntity) } c =
      .ok { p with structure? := some [c] } := insertChild_some _ c [] rfl
  rw [this]

theorem insertBlock_some (block : List GenericEntity) :
    ∀ (p : GenericEntity) (cs : List GenericEntity), p.structure? = some cs →
      insertBlock p block = .ok ({ p with structure? := some (cs ++ block) }, []) := by
  induction block with
  | nil =>
      intro p cs h
      cases p with
      | mk i d r dm s =>
          simp only at h
          subst h
          simp [insertBlock]
  | cons e es ih =>
      intro p cs h
      simp only [insertBlock, tryInsert_some p e cs h, bindE_ok,
        ih { p with structure? := some (cs ++ [e]) } (cs ++ [e]) rfl]
      simp [List.append_assoc]

theorem insertBlock_eq (p : GenericEntity) (block : List GenericEntity) :
    insertBlock p block = .ok (afterInsert p block, blockWarnings p block) := by
  cases hb : block with
  | nil =>
      cases hs : p.structure? with
      | none => simp [insertBlock, afterInsert, blockWarnings, hs]
      | some cs => simp [insertBlock, afterInsert, blockWarnings, hs]
  | cons e es =>
      cases hs : p.structure? with
      | some cs =>
          rw [insertBlock_some (e :: es) p cs hs]
          simp [afterInsert, blockWarnings, hs, childrenOf]
      | none =>
          simp only [insertBlock, tryInsert_none p e hs, bindE_ok,
            insertBlock_some es { p with structure? := some [e] } [e] rfl]
          simp [afterInsert, blockWarnings, hs, childrenOf]

theorem afterInsert_ident (p : GenericEntity) (b : List GenericEntity) :
    (afterInsert p b).ident = p.ident := by
  cases b <;> rfl

theorem afterInsert_desc (p : GenericEntity) (b : List GenericEntity) :
    (afterInsert p b).desc = p.desc := by
  cases b <;> rfl

theorem childrenOf_afterInsert (p : GenericEntity) (b : List GenericEntity) :
    childrenOf (afterInsert p b) = childrenOf p ++ b := by
  cases b with
  | nil => simp [afterInsert]
  | cons x xs => simp [afterInsert, childrenOf]

theorem insertBlocks_eq (ents : List GenericEntity) (pp : Nat) :
    ∀ (parents : List GenericEntity) (pidx : Nat), ∃ ws,
      insertBlocks ents pp parents pidx = .ok (afterInsertAll ents pp parents pidx, ws) := by
  intro parents
  induction parents with
  | nil => intro pidx; exact ⟨[], rfl⟩
  | cons p ps ih =>
      intro pidx
      obtain ⟨ws, hws⟩ := ih (pidx + 1)
      refine ⟨blockWarnings p (blockFor ents pp pidx) ++ ws, ?_⟩
      simp only [insertBlocks, insertBlock_eq, bindE_ok, hws, afterInsertAll]
      rfl

theorem length_afterInsertAll (ents : List GenericEntity) (pp : Nat) :
    ∀ (parents : List GenericEntity) (pidx : Nat),
      (afterInsertAll ents pp parents pidx).length = parents.length := by
  intro parents
  induction parents with
  | nil => intro pidx; rfl
  | cons p ps ih => intro pidx; simp [afterInsertAll, ih]

theorem get_afterInsertAll (ents : List GenericEntity) (pp : Nat) :
    ∀ (parents : List GenericEntity) (pidx j : Nat) (hj : j < parents.length)
      (hj2 : j < (afterInsertAll ents pp parents pidx).length),
      (afterInsertAll ents pp parents pidx).get ⟨j, hj2⟩ =
        afterInsert (parents.get ⟨j, hj⟩) (blockFor ents pp (pidx + j)) := by
  intro parents
  induction parents with
  | nil => intro pidx j hj hj2; simp at hj
  | cons p ps ih =>
      intro pidx j hj hj2
      cases j with
      | zero => simp [afterInsertAll]
      | succ j2 =>
          have hj3 : j2 < ps.length := by simpa using hj
          have hj4 : j2 < (afterInsertAll ents pp ps (pidx + 1)).length := by
            rw [length_afterInsertAll]; exact hj3
          have harg : pidx + 1 + j2 = pidx + (j2 + 1) := by omega
          have hrec := ih (pidx + 1) j2 hj3 hj4
          rw [harg] at hrec
          simpa [afterInsertAll] using hrec

theorem insertLineEntities_even (ents parents : List GenericEntity)
    (hne : parents.length ≠ 0)
    (heven : parents.length * (ents.length / parents.length) = ents.length) :
    ∃ ws, insertLineEntities ents parents =
      .ok (afterInsertAll ents (ents.length / parents.length) parents 0, ws) := by
  obtain ⟨ws, hws⟩ := insertBlocks_eq ents (ents.length / parents.length) parents 0
  refine ⟨ws, ?_⟩
  simp only [insertLineEntities, hne, if_false, heven, if_true, hws, if_neg hne, if_pos heven]

theorem insertLineEntities_uneven (ents parents : List GenericEntity)
    (hne : parents.length ≠ 0)
    (huneven : parents.length * (ents.length / parents.length) ≠ ents.length) :
    insertLineEntities ents parents = .error .assertUneven := by
  simp only [insertLineEntities, if_neg hne, if_neg huneven]

theorem insertLineEntities_ok_shape (ents parents ps2 : List GenericEntity)
    (ws : List String) (h : insertLineEntities ents parents = .ok (ps2, ws)) :
    ps2 = afterInsertAll ents (ents.length / parents.length) parents 0 := by
  unfold insertLineEntities at h
  by_cases h0 : parents.length = 0
  · rw [if_pos h0] at h; cases h
  · rw [if_neg h0] at h
    by_cases he : parents.length * (ents.length / parents.length) = ents.length
    · rw [if_pos he] at h
      obtain ⟨ws2, hws⟩ := insertBlocks_eq ents (ents.length / parents.length) parents 0
      rw [hws] at h
      cases h
      rfl
    · rw [if_neg he] at h; cases h

theorem lookupAP_setAP_self (aps : List (Int × List GenericEntity)) (k : Int)
    (v : List GenericEntity) : lookupAP (setAP aps k v) k = some v := by
  induction aps with
  | nil => simp [setAP, lookupAP]
  | cons p rest ih =>
      obtain ⟨a, b⟩ := p
      by_cases hk : a = k
      · simp [setAP, hk, lookupAP]
      · simp [setAP, hk, lookupAP, ih]

theorem lookupAP_setAP_ne (aps : List (Int × List GenericEntity)) (k k2 : Int)
    (v : List GenericEntity) (h : k2 ≠ k) :
    lookupAP (setAP aps k v) k2 = lookupAP aps k2 := by
  have hne : k ≠ k2 := fun hh => h hh.symm
  induction aps with
  | nil => simp [setAP, lookupAP, hne]
  | cons p rest ih =>
      obtain ⟨a, b⟩ := p
      by_cases hk : a = k
      · subst hk
        simp only [setAP, if_pos rfl, lookupAP, if_neg hne]
      · by_cases hk2 : a = k2
        · subst hk2
          simp [setAP, if_neg hk, lookupAP]
        · simp [setAP, hk, lookupAP, hk2, ih]

theorem lookupAP_mem (aps : List (Int × List GenericEntity)) (k : Int)
    (v : List GenericEntity) (h : lookupAP aps k = some v) : (k, v) ∈ aps := by
  induction aps with
  | nil => simp [lookupAP] at h
  | cons p rest ih =>
      obtain ⟨a, b⟩ := p
      by_cases hk : a = k
      · subst hk
        rw [lookupAP, if_pos rfl] at h
        cases h
        exact List.mem_cons_self _ rest
      · simp only [lookupAP, if_neg hk] at h
        exact List.mem_cons_of_mem _ (ih h)

theorem mem_setAP (aps : List (Int × List GenericEntity)) (k : Int)
    (v : List GenericEntity) (p : Int × List GenericEntity)
    (h : p ∈ setAP aps k v) : p = (k, v) ∨ p ∈ aps := by
  induction aps with
  | nil => simp [setAP] at h; simp [h]
  | cons q rest ih =>
      obtain ⟨a, b⟩ := q
      by_cases hk : a = k
      · rw [setAP, if_pos hk] at h
        rcases List.mem_cons.1 h with h2 | h2
        · exact Or.inl h2
        · exact Or.inr (List.mem_cons_of_mem _ h2)
      · rw [setAP, if_neg hk] at h
        rcases List.mem_cons.1 h with h2 | h2
        · exact Or.inr (h2 ▸ List.mem_cons_self _ rest)
        · rcases ih h2 with h3 | h3
          · exact Or.inl h3
          · exact Or.inr (List.mem_cons_of_mem _ h3)

theorem processLine_ok_inv (v : PslVariant) (st : ParserState) (line : Row)
    (st2 : ParserState) (h : processLine v st line = .ok st2) :
    ∃ pident lvs level parents ents parents2 ws,
      extractParentIdent v line = .ok pident ∧
      lookupField line v.levelName = .ok lvs ∧
      pyInt? lvs = some level ∧
      lookupAP st.activeParents (level - 1) = some parents ∧
      generateLineEntities v line = .ok ents ∧
      insertLineEntities ents parents = .ok (parents2, ws) ∧
      st2 = ⟨setAP (setAP st.activeParents (level - 1) parents2) level ents,
             st.warnings ++ ws⟩ := by
  unfold processLine at h
  cases h1 : extractParentIdent v line with
  | error e => rw [h1] at h; simp at h
  | ok pident =>
  rw [h1] at h
  simp only [bindE_ok] at h
  cases h2 : lookupField line v.levelName with
  | error e => rw [h2] at h; simp at h
  | ok lvs =>
  rw [h2] at h
  simp only [bindE_ok] at h
  cases h3 : pyInt? lvs with
  | none => rw [pyIntE, h3] at h; simp at h
  | some level =>
  rw [pyIntE, h3] at h
  simp only [bindE_ok] at h
  cases h4 : lookupAP st.activeParents (level - 1) with
  | none => rw [h4] at h; simp at h
  | some parents =>
  rw [h4] at h
  simp only [bindE_ok] at h
  have htail : (generateLineEntities v line >>= fun line_entities =>
      insertLineEntities line_entities parents >>= fun pw =>
      Except.ok (⟨setAP (setAP st.activeParents (level - 1) pw.1) level line_entities,
                  st.warnings ++ pw.2⟩ : ParserState)) = .ok st2 := by
    by_cases hl : level > 0
    · rw [if_pos hl] at h
      cases h5 : checkParent parents pident with
      | error e => rw [h5] at h; simp at h
      | ok u => rw [h5] at h; simpa using h
    · rw [if_neg hl] at h
      simpa [pure, Except.pure] using h
  cases h6 : generateLineEntities v line with
  | error e => rw [h6] at htail; simp at htail
  | ok ents =>
  rw [h6] at htail
  simp only [bindE_ok] at htail
  cases h7 : insertLineEntities ents parents with
  | error e => rw [h7] at htail; simp at htail
  | ok pw =>
  rw [h7] at htail
  simp only [bindE_ok, Except.ok.injEq] at htail
  exact ⟨pident, lvs, level, parents, ents, pw.1, pw.2, rfl, rfl, h3, h4, rfl, h7,
    htail.symm⟩

theorem processLine_rootInv (I D : String) (v : PslVariant) (st st2 : ParserState)
    (line : Row) (h : processLine v st line = .ok st2) (hinv : rootInv I D st) :
    rootInv I D st2 := by
  obtain ⟨pident, lvs, level, parents, ents, parents2, ws, h1, h2, h3, h4, h6, h7, hst2⟩ :=
    processLine_ok_inv v st line st2 h
  obtain ⟨hkeys, o, orest, hroot, hoI, hoD⟩ := hinv
  have hmem := lookupAP_mem _ _ _ h4
  have hlev : -1 ≤ level - 1 := hkeys _ hmem
  have hlev0 : 0 ≤ level := by omega
  subst hst2
  constructor
  · intro p hp
    rcases mem_setAP _ _ _ _ hp with h8 | h8
    · rw [h8]; show (-1 : Int) ≤ level; omega
    · rcases mem_setAP _ _ _ _ h8 with h9 | h9
      · rw [h9]; exact hlev
      · exact hkeys _ h9
  · by_cases hl0 : level = 0
    · subst hl0
      have hz : (0 : Int) - 1 = -1 := by norm_num
      rw [hz] at h4 ⊢
      have hpar : parents = o :: orest := by
        rw [h4] at hroot
        exact Option.some.inj hroot
      subst hpar
      have hshape := insertLineEntities_ok_shape ents (o :: orest) parents2 ws h7
      rw [afterInsertAll] at hshape
      refine ⟨afterInsert o (blockFor ents (ents.length / (o :: orest).length) 0),
        afterInsertAll ents (ents.length / (o :: orest).length) orest 1, ?_, ?_, ?_⟩
      · rw [lookupAP_setAP_ne _ _ _ _ (by norm_num : (-1 : Int) ≠ 0),
          lookupAP_setAP_self, hshape]
      · rw [afterInsert_ident]; exact hoI
      · rw [afterInsert_desc]; exact hoD
    · have hlpos : 0 < level := lt_of_le_of_ne hlev0 (fun hh => hl0 hh.symm)
      refine ⟨o, orest, ?_, hoI, hoD⟩
      rw [lookupAP_setAP_ne _ _ _ _ (by omega : (-1 : Int) ≠ level),
        lookupAP_setAP_ne _ _ _ _ (by omega : (-1 : Int) ≠ level - 1)]
      exact hroot

theorem processLines_rootInv (I D : String) (v : PslVariant) (columns : List String) :
    ∀ (body : List (List String)) (st st2 : ParserState),
      processLines v columns st body = .ok st2 → rootInv I D st → rootInv I D st2 := by
  intro body
  induction body with
  | nil =>
      intro st st2 h hinv
      unfold processLines at h
      cases h
      exact hinv
  | cons cells rest ih =>
      intro st st2 h hinv
      unfold processLines at h
      cases hpl : processLine v st (dictZip columns cells) with
      | error e => rw [hpl] at h; simp at h
      | ok stm =>
          rw [hpl] at h
          simp only [bindE_ok] at h
          exact ih stm st2 h (processLine_rootInv I D v st stm _ hpl hinv)

theorem processLines_error_head (v : PslVariant) (columns : List String)
    (st : ParserState) (cells : List String) (rest : List (List String)) (e : PslError)
    (h : processLine v st (dictZip columns cells) = .error e) :
    processLines v columns st (cells :: rest) = .error e := by
  unfold processLines
  rw [h]
  rfl

theorem lookupField_error (line : Row) (k : String) (e : PslError)
    (h : lookupField line k = .error e) : e = .keyErrorS k := by
  unfold lookupField at h
  cases hk : line k with
  | some v => rw [hk] at h; cases h
  | none => rw [hk] at h; cases h; rfl

theorem extractCompositeValue_error (line : Row) :
    ∀ (options : List CompositeSpec) (e : PslError),
      extractCompositeValue line options = .error e → ∃ k, e = .keyErrorS k := by
  intro options
  induction options with
  | nil => intro e h; cases h
  | cons opt rest ih =>
      intro e h
      unfold extractCompositeValue at h
      cases hm : opt.parts.mapM (lookupField line) with
      | error e2 =>
          rw [hm] at h
          simp only [bindE_error, Except.error.injEq] at h
          subst h
          obtain ⟨a, ha, hfa⟩ := mapM_error_mem _ _ _ hm
          exact ⟨a, lookupField_error line a _ hfa⟩
      | ok args =>
          rw [hm] at h
          simp only [bindE_ok] at h
          by_cases hc : pyStrip (formatWith opt.fmt args) ≠ ""
          · rw [if_pos hc] at h; cases h
          · rw [if_neg hc] at h
            exact ih e h

theorem mapM_lookupField_ok (l : Row) :
    ∀ parts : List String, (∀ k ∈ parts, (l k).isSome) →
      ∃ args, parts.mapM (lookupField l) = .ok args := by
  intro parts
  induction parts with
  | nil => intro _; exact ⟨[], rfl⟩
  | cons k rest ih =>
      intro hsome
      obtain ⟨v, hv⟩ := Option.isSome_iff_exists.1 (hsome k (List.mem_cons_self k rest))
      obtain ⟨args, hargs⟩ := ih (fun x hx => hsome x (List.mem_cons_of_mem k hx))
      refine ⟨v :: args, ?_⟩
      rw [List.mapM_cons]
      have : lookupField l k = .ok v := by unfold lookupField; rw [hv]
      rw [this, hargs]
      rfl

theorem extractCompositeValue_total (l : Row) :
    ∀ options : List CompositeSpec,
      (∀ opt ∈ options, ∀ k ∈ opt.parts, (l k).isSome) →
      ∃ r, extractCompositeValue l options = .ok r := by
  intro options
  induction options with
  | nil => intro _; exact ⟨none, rfl⟩
  | cons opt rest ih =>
      intro hsome
      obtain ⟨args, hargs⟩ :=
        mapM_lookupField_ok l opt.parts (hsome opt (List.mem_cons_self opt rest))
      unfold extractCompositeValue
      rw [hargs]
      simp only [bindE_ok]
      by_cases hc : pyStrip (formatWith opt.fmt args) ≠ ""
      · rw [if_pos hc]
        exact ⟨some (opt.result (pyStrip (formatWith opt.fmt args))), rfl⟩
      · rw [if_neg hc]
        exact ih (fun o ho k hk => hsome o (List.mem_cons_of_mem opt ho) k hk)

theorem mapM_congr {ε : Type} {α β : Type} (l : List α) (f g : α → Except ε β)
    (h : ∀ a ∈ l, f a = g a) : l.mapM f = l.mapM g := by
  induction l with
  | nil => rfl
  | cons a t ih =>
      rw [List.mapM_cons, List.mapM_cons, h a (List.mem_cons_self a t),
        ih (fun x hx => h x (List.mem_cons_of_mem a hx))]

theorem extractCompositeValue_congr (l1 l2 : Row) :
    ∀ options : List CompositeSpec,
      (∀ opt ∈ options, ∀ k ∈ opt.parts, l1 k = l2 k) →
      extractCompositeValue l1 options = extractCompositeValue l2 options := by
  intro options
  induction options with
  | nil => intro _; rfl
  | cons opt rest ih =>
      intro hagr
      unfold extractCompositeValue
      have hm : opt.parts.mapM (lookupField l1) = opt.parts.mapM (lookupField l2) :=
        mapM_congr _ _ _ (fun k hk => by
          unfold lookupField
          rw [hagr opt (List.mem_cons_self opt rest) k hk])
      rw [hm]
      cases hmm : opt.parts.mapM (lookupField l2) with
      | error e => rfl
      | ok args =>
          simp only [bindE_ok]
          by_cases hc : pyStrip (formatWith opt.fmt args) ≠ ""
          · rw [if_pos hc, if_pos hc]
          · rw [if_neg hc, if_neg hc]
            exact ih (fun o ho k hk => hagr o (List.mem_cons_of_mem opt ho) k hk)

theorem generateLineEntities_congr (v : PslVariant) (l1 l2 : Row)
    (hid : ∀ opt ∈ v.identName, ∀ k ∈ opt.parts, l1 k = l2 k)
    (hq : l1 v.qtyName = l2 v.qtyName)
    (hr : l1 v.refdesName = l2 v.refdesName)
    (hd : l1 v.descName = l2 v.descName)
    (ht : l1 v.typeName = l2 v.typeName) :
    generateLineEntities v l1 = generateLineEntities v l2 := by
  unfold generateLineEntities
  have hex : extractIdent v l1 = extractIdent v l2 :=
    extractCompositeValue_congr l1 l2 v.identName hid
  rw [hex]
  cases hev : extractIdent v l2 with
  | error e => rfl
  | ok ev =>
      simp only [bindE_ok]
      simp only [lookupField, hq, hr, hd, ht]

theorem generateLineEntities_error (v : PslVariant) (line : Row) (e : PslError)
    (h : generateLineEntities v line = .error e) :
    e = .typeError ∨ e = .valueError ∨ ∃ k, e = .keyErrorS k := by
  unfold generateLineEntities at h
  cases h1 : extractIdent v line with
  | error e2 =>
      rw [h1] at h
      simp only [bindE_error, Except.error.injEq] at h
      subst h
      exact Or.inr (Or.inr (extractCompositeValue_error line v.identName e2 h1))
  | ok ev =>
      rw [h1] at h
      simp only [bindE_ok] at h
      have hinner : ∀ (qty : Int) (line_ident domain : String) (e2 : PslError),
          ((List.range qty.toNat).mapM (fun i => do
            let baseRefdes ← lookupField line v.refdesName
            let refdes := if qty > 1
              then baseRefdes ++ String.singleton (Char.ofNat ('a'.toNat + i))
              else baseRefdes
            let descVal ← lookupField line v.descName
            let typeVal ← lookupField line v.typeName
            Except.ok { ident := line_ident, desc := descVal, refdes := some refdes,
                        domain := some domain, structure? :=
                          if typeVal = v.typeAssembly then some [] else none
                        : GenericEntity }) = Except.error e2) →
          ∃ k, e2 = PslError.keyErrorS k := by
        intro qty line_ident domain e2 hcon
        obtain ⟨i, hi, hfi⟩ := mapM_error_mem _ _ _ hcon
        cases h5 : lookupField line v.refdesName with
        | error e3 =>
            rw [h5] at hfi
            simp only [bindE_error, Except.error.injEq] at hfi
            subst hfi
            exact ⟨v.refdesName, lookupField_error line _ _ h5⟩
        | ok baseRefdes =>
            rw [h5] at hfi
            simp only [bindE_ok] at hfi
            cases h6 : lookupField line v.descName with
            | error e3 =>
                rw [h6] at hfi
                simp only [bindE_error, Except.error.injEq] at hfi
                subst hfi
                exact ⟨v.descName, lookupField_error line _ _ h6⟩
            | ok descVal =>
                rw [h6] at hfi
                simp only [bindE_ok] at hfi
                cases h7 : lookupField line v.typeName with
                | error e3 =>
                    rw [h7] at hfi
                    simp only [bindE_error, Except.error.injEq] at hfi
                    subst hfi
                    exact ⟨v.typeName, lookupField_error line _ _ h7⟩
                | ok typeVal =>
                    rw [h7] at hfi
                    simp at hfi
      cases ev with
      | none =>
          simp only [bindE_error, Except.error.injEq] at h
          exact Or.inl h.symm
      | some x =>
          cases x with
          | bare s =>
              simp only [bindE_error, Except.error.injEq] at h
              exact Or.inr (Or.inl h.symm)
          | withDomain c d =>
              simp only [bindE_ok] at h
              cases hhq : v.handleQty with
              | false =>
                  rw [hhq] at h
                  simp only [Bool.false_eq_true, if_false, bindE_ok] at h
                  obtain ⟨k, hk⟩ := hinner 1 c d e h
                  exact Or.inr (Or.inr ⟨k, hk⟩)
              | true =>
                  rw [hhq] at h
                  simp only [if_true, bindE_ok] at h
                  cases h2 : lookupField line v.qtyName with
                  | error e2 =>
                      rw [h2] at h
                      simp only [bindE_error, Except.error.injEq] at h
                      subst h
                      exact Or.inr (Or.inr ⟨v.qtyName, lookupField_error line _ _ h2⟩)
                  | ok s =>
                      rw [h2] at h
                      simp only [bindE_ok] at h
                      cases h3 : pyInt? s with
                      | none =>
                          rw [h3] at h
                          simp only [bindE_error, Except.error.injEq] at h
                          exact Or.inr (Or.inl h.symm)
                      | some n =>
                          rw [h3] at h
                          simp only [bindE_ok] at h
                          obtain ⟨k, hk⟩ := hinner n c d e h
                          exact Or.inr (Or.inr ⟨k, hk⟩)

theorem insertLineEntities_error (ents parents : List GenericEntity) (e : PslError)
    (h : insertLineEntities ents parents = .error e) :
    e = .zeroDivisionError ∨ e = .assertUneven := by
  unfold insertLineEntities at h
  by_cases h0 : parents.length = 0
  · rw [if_pos h0] at h; cases h; exact Or.inl rfl
  · rw [if_neg h0] at h
    by_cases he : parents.length * (ents.length / parents.length) = ents.length
    · rw [if_pos he] at h
      obtain ⟨ws, hws⟩ := insertBlocks_eq ents (ents.length / parents.length) parents 0
      rw [hws] at h
      cases h
    · rw [if_neg he] at h; cases h; exact Or.inr rfl

theorem processLine_level0_no_mismatch (v : PslVariant) (st : ParserState) (line : Row)
    (lvs : String) (hlv : line v.levelName = some lvs) (hz : pyInt? lvs = some 0) :
    processLine v st line ≠ .error .assertParentMismatch := by
  intro h
  unfold processLine at h
  cases h1 : extractParentIdent v line with
  | error e =>
      rw [h1] at h
      simp only [bindE_error, Except.error.injEq] at h
      obtain ⟨k, hk⟩ := extractCompositeValue_error line v.parentIdentName e h1
      rw [h] at hk
      simp at hk
  | ok pident =>
      rw [h1] at h
      simp only [bindE_ok] at h
      have hlf : lookupField line v.levelName = .ok lvs := by
        unfold lookupField; rw [hlv]
      rw [hlf] at h
      simp only [bindE_ok] at h
      rw [pyIntE, hz] at h
      simp only [bindE_ok] at h
      cases h4 : lookupAP st.activeParents ((0 : Int) - 1) with
      | none => rw [h4] at h; simp at h
      | some parents =>
          rw [h4] at h
          simp only [bindE_ok] at h
          rw [if_neg (by norm_num : ¬ ((0 : Int) > 0))] at h
          simp only [pure, Except.pure, bindE_ok] at h
          cases h6 : generateLineEntities v line with
          | error e =>
              rw [h6] at h
              simp only [bindE_error, Except.error.injEq] at h
              rcases generateLineEntities_error v line e h6 with h7 | h7 | ⟨k, h7⟩ <;>
                · rw [h] at h7; simp at h7
          | ok ents =>
              rw [h6] at h
              simp only [bindE_ok] at h
              cases h7 : insertLineEntities ents parents with
              | error e =>
                  rw [h7] at h
                  simp only [bindE_error, Except.error.injEq] at h
                  rcases insertLineEntities_error ents parents e h7 with h8 | h8 <;>
                    · rw [h] at h8; simp at h8
              | ok pw =>
                  rw [h7] at h
                  simp at h

theorem processLine_level0_congr (v : PslVariant) (st : ParserState) (l1 l2 : Row)
    (lvs : String)
    (hpp1 : ∀ opt ∈ v.parentIdentName, ∀ k ∈ opt.parts, (l1 k).isSome)
    (hpp2 : ∀ opt ∈ v.parentIdentName, ∀ k ∈ opt.parts, (l2 k).isSome)
    (hlvl : l1 v.levelName = l2 v.levelName)
    (hl0 : l1 v.levelName = some lvs) (hz : pyInt? lvs = some 0)
    (hid : ∀ opt ∈ v.identName, ∀ k ∈ opt.parts, l1 k = l2 k)
    (hq : l1 v.qtyName = l2 v.qtyName) (hr : l1 v.refdesName = l2 v.refdesName)
    (hd : l1 v.descName = l2 v.descName) (ht : l1 v.typeName = l2 v.typeName) :
    processLine v st l1 = processLine v st l2 := by
  obtain ⟨r1, hr1⟩ := extractCompositeValue_total l1 v.parentIdentName hpp1
  obtain ⟨r2, hr2⟩ := extractCompositeValue_total l2 v.parentIdentName hpp2
  unfold processLine
  rw [show extractParentIdent v l1 = .ok r1 from hr1,
    show extractParentIdent v l2 = .ok r2 from hr2]
  simp only [bindE_ok]
  have hlf1 : lookupField l1 v.levelName = .ok lvs := by
    unfold lookupField; rw [hl0]
  have hlf2 : lookupField l2 v.levelName = .ok lvs := by
    unfold lookupField; rw [← hlvl, hl0]
  rw [hlf1, hlf2]
  simp only [bindE_ok]
  rw [pyIntE, hz]
  simp only [bindE_ok]
  cases h4 : lookupAP st.activeParents ((0 : Int) - 1) with
  | none => rfl
  | some parents =>
      simp only [bindE_ok]
      rw [if_neg (by norm_num : ¬ ((0 : Int) > 0)),
        if_neg (by norm_num : ¬ ((0 : Int) > 0))]
      simp only [pure, Except.pure, bindE_ok]
      rw [generateLineEntities_congr v l1 l2 hid hq hr hd ht]

theorem char_toNat_ofNat_valid (n : Nat) (h : n < 55296) : (Char.ofNat n).toNat = n := by
  have hv : n.isValidChar := Or.inl h
  rw [Char.ofNat, dif_pos hv]
  rfl

/-! ## The claims -/

/-- Claim C1 (code_bug evidence): on a header lacking the required `qty` column,
the validation sink receives the structured "required column missing" error
naming `qty` and the warning is logged, but — contrary to the claim that
`parse()` returns no owner and raises no exception — `parse()` raises a
`TypeError`: `_prep_reader` returns `None` and `parse()` iterates it.  The
file handle is not closed on this path. -/
theorem parse_schema_missing_typeerror :
    parse pslParserCSV "widget.csv" schemaMissingRecords =
      { result := .error .typeError
        validationErrors := [.requiredColumnMissing ["qty"]]
        warnings := [columnsWarning "widget.csv"]
        closed := false } := rfl

/-- Claim C7: `_extract_composite_value` formats each candidate's template with
the named row fields, strips surrounding whitespace, and returns the first
candidate whose stripped result is non-empty — paired with the candidate's
domain tag for an `IdentSpec` and bare for a `ParseSpec`; when the first
candidate's result is non-empty the remaining candidates are never consulted
(the result does not depend on them), and when it is empty the extractor moves
on to the rest. -/
theorem extract_composite_first_nonempty (line : Row) (opt : CompositeSpec)
    (options : List CompositeSpec) (args : List String)
    (hargs : opt.parts.mapM (lookupField line) = .ok args) :
    (pyStrip (formatWith opt.fmt args) ≠ "" →
      extractCompositeValue line (opt :: options) =
        .ok (some (opt.result (pyStrip (formatWith opt.fmt args))))) ∧
    (pyStrip (formatWith opt.fmt args) = "" →
      extractCompositeValue line (opt :: options) = extractCompositeValue line options) ∧
    (∀ s : String, ∀ i : IdentSpec,
      (CompositeSpec.ofIdent i).result s = .withDomain s i.domain) ∧
    (∀ s : String, ∀ p : ParseSpec, (CompositeSpec.ofParse p).result s = .bare s) := by
  refine ⟨?_, ?_, fun s i => rfl, fun s p => rfl⟩
  · intro hne
    unfold extractCompositeValue
    rw [hargs]
    simp only [bindE_ok]
    rw [if_pos hne]
  · intro heq
    unfold extractCompositeValue
    rw [hargs]
    simp only [bindE_ok]
    rw [if_neg (fun hn => hn heq)]
    cases options <;> rfl

/-- Witness for C7 at a concrete row and candidate list: the first candidate
formats to `" X "`, is stripped to `"X"`, and is returned with its domain tag
without consulting the second candidate. -/
theorem extract_composite_first_nonempty_witness :
    extractCompositeValue
        (fun k => if k = "a" then some " X " else if k = "b" then some "Y" else none)
        (.ofIdent ⟨"cadfiles", [.arg 0], ["a"]⟩ ::
          [.ofIdent ⟨"materials", [.arg 0], ["b"]⟩]) =
      .ok (some (.withDomain "X" "cadfiles")) :=
  ((extract_composite_first_nonempty
      (fun k => if k = "a" then some " X " else if k = "b" then some "Y" else none)
      (.ofIdent ⟨"cadfiles", [.arg 0], ["a"]⟩)
      [.ofIdent ⟨"materials", [.arg 0], ["b"]⟩]
      [" X "] rfl).1 (by decide)).trans (by rfl)

/-- Claim C8: `_read_meta` reads one line per expected label in declared order;
if every line's label matches, the metadata map sends each label to the value
on its line (and the remaining records are handed to the body reader); at the
first line whose label differs from the expected label, a
`MetadataParseException` carrying the found and the expected label is
raised. -/
theorem read_meta_label_contract :
    (∀ (labels values : List String) (records : List (List String)),
        labels.length = values.length →
        readMeta labels ((labels.zip values).map (fun p => [p.1, p.2]) ++ records) =
          .ok (labels.zip values, records)) ∧
    (∀ (pre preVals : List String) (badFound badVal : String)
        (more : List (List String)) (label : String) (labels : List String),
        pre.length = preVals.length →
        badFound ≠ label →
        readMeta (pre ++ label :: labels)
            ((pre.zip preVals).map (fun p => [p.1, p.2]) ++ [badFound, badVal] :: more) =
          .error (.metadataParse badFound label)) := by
  constructor
  · intro labels
    induction labels with
    | nil =>
        intro values records hlen
        cases values with
        | nil => rfl
        | cons v vs => cases hlen
    | cons l ls ih =>
        intro values records hlen
        cases values with
        | nil => cases hlen
        | cons v vs =>
            have hlen2 : ls.length = vs.length := by simpa using hlen
            unfold readMeta
            rw [show readMetaLine
                ((( (l :: ls).zip (v :: vs)).map (fun p => [p.1, p.2])) ++ records) l =
                .ok (v, (ls.zip vs).map (fun p => [p.1, p.2]) ++ records) by
              simp [readMetaLine]]
            simp only [bindE_ok]
            rw [ih vs records hlen2]
            rfl
  · intro pre
    induction pre with
    | nil =>
        intro preVals badFound badVal more label labels hlen hne
        cases preVals with
        | nil =>
            unfold readMeta readMetaLine
            simp [hne]
        | cons v vs => cases hlen
    | cons p ps ih =>
        intro preVals badFound badVal more label labels hlen hne
        cases preVals with
        | nil => cases hlen
        | cons v vs =>
            have hlen2 : ps.length = vs.length := by simpa using hlen
            rw [List.cons_append]
            unfold readMeta
            rw [show readMetaLine
                ((((p :: ps).zip (v :: vs)).map (fun q => [q.1, q.2])) ++
                  [badFound, badVal] :: more) p =
                .ok (v, (ps.zip vs).map (fun q => [q.1, q.2]) ++ [badFound, badVal] :: more) by
              simp [readMetaLine]]
            simp only [bindE_ok]
            rw [ih vs badFound badVal more label labels hlen2 hne]
            rfl

/-- Witness for C8: a matching two-label metadata block is read into the map
in order, and a mismatching second label raises the exception naming the found
and the expected label. -/
theorem read_meta_label_contract_witness :
    readMeta ["ident", "revision"] [["ident", "R1"], ["revision", "A"], ["x"]] =
      .ok ([("ident", "R1"), ("revision", "A")], [["x"]]) ∧
    readMeta ["ident", "revision"] [["ident", "R1"], ["version", "A"], ["x"]] =
      .error (.metadataParse "version" "revision") := by
  constructor
  · exact (read_meta_label_contract.1 ["ident", "revision"] ["R1", "A"] [["x"]] rfl).trans
      (by rfl)
  · exact (read_meta_label_contract.2 ["ident"] ["R1"] "version" "A" [["x"]]
      "revision" [] rfl (by decide)).trans (by rfl)

/-- Claim C3: for a row at level L > 0 whose extracted parent identity does not
equal the identity of the first entity of the level-(L-1) active-parent list,
`_process_line` fails with the fatal parent-consistency assertion; and the row
loop of `parse()` propagates any such row failure instead of silently
returning a tree. -/
theorem process_line_parent_mismatch_fatal (v : PslVariant) (st : ParserState)
    (line : Row) (pident : Option ExtractedValue) (lvs : String) (level : Int)
    (p0 : GenericEntity) (prest : List GenericEntity)
    (h1 : extractParentIdent v line = .ok pident)
    (h2 : line v.levelName = some lvs)
    (h3 : pyInt? lvs = some level)
    (hpos : 0 < level)
    (h4 : lookupAP st.activeParents (level - 1) = some (p0 :: prest))
    (hne : pyEqIdent p0.ident pident = false) :
    processLine v st line = .error .assertParentMismatch ∧
    (∀ (columns cells : List String) (rest : List (List String))
        (st2 : ParserState) (e : PslError),
        processLine v st2 (dictZip columns cells) = .error e →
        processLines v columns st2 (cells :: rest) = .error e) := by
  constructor
  · unfold processLine
    rw [h1]
    simp only [bindE_ok]
    rw [show lookupField line v.levelName = .ok lvs by unfold lookupField; rw [h2]]
    simp only [bindE_ok]
    rw [pyIntE, h3]
    simp only [bindE_ok]
    rw [h4]
    simp only [bindE_ok]
    rw [if_pos hpos]
    have hcp : checkParent (p0 :: prest) pident = .error .assertParentMismatch := by
      show (if pyEqIdent p0.ident pident = true
            then (Except.ok () : Except PslError Unit)
            else .error .assertParentMismatch) = .error .assertParentMismatch
      rw [hne]
      rfl
    rw [hcp]
    rfl
  · exact fun columns cells rest st2 e h =>
      processLines_error_head v columns st2 cells rest e h

/-- Witness for C3: a level-1 row naming parent `D999 Z` while the active
level-0 parent is `D100 X` fails with the parent-mismatch assertion. -/
theorem process_line_parent_mismatch_fatal_witness :
    processLine pslParserCSV mismatchState mismatchRow =
      .error .assertParentMismatch :=
  (process_line_parent_mismatch_fatal pslParserCSV mismatchState mismatchRow
    (some (.bare "D999 Z")) "1" 1 mismatchParent []
    (by rfl) (by rfl) (by rfl) (by norm_num) (by rfl) (by rfl)).1

/-- Claim C4: `_insert_line_entities` computes `per_parent` as
`len(line_entities) / len(parents)`; a non-even division fires the fatal
assertion, and on an even division the entities are assigned to the parents in
parent order in contiguous blocks: the parent at index `p` receives exactly
the entities at indices `p*per_parent .. p*per_parent + per_parent - 1`,
appended to its children. -/
theorem insert_line_entities_contiguous_blocks (ents parents : List GenericEntity)
    (hne : parents.length ≠ 0) :
    (parents.length * (ents.length / parents.length) ≠ ents.length →
      insertLineEntities ents parents = .error .assertUneven) ∧
    (parents.length * (ents.length / parents.length) = ents.length →
      ∃ parents2 ws, insertLineEntities ents parents = .ok (parents2, ws) ∧
        parents2.length = parents.length ∧
        ∀ (p : Nat) (hp : p < parents.length) (hp2 : p < parents2.length),
          childrenOf (parents2.get ⟨p, hp2⟩) =
            childrenOf (parents.get ⟨p, hp⟩) ++
              (ents.drop (p * (ents.length / parents.length))).take
                (ents.length / parents.length)) := by
  constructor
  · exact insertLineEntities_uneven ents parents hne
  · intro heven
    obtain ⟨ws, hws⟩ := insertLineEntities_even ents parents hne heven
    refine ⟨_, ws, hws, length_afterInsertAll _ _ _ _, ?_⟩
    intro p hp hp2
    rw [get_afterInsertAll ents (ents.length / parents.length) parents 0 p hp hp2,
      childrenOf_afterInsert]
    simp [blockFor]

/-- Witness for C4: five entities into two parents is uneven and fires the
assertion; four entities into two parents distribute as blocks
`[e1, e2] / [e3, e4]`. -/
theorem insert_line_entities_contiguous_blocks_witness :
    insertLineEntities
        [tinyEnt "e1", tinyEnt "e2", tinyEnt "e3", tinyEnt "e4", tinyEnt "e5"]
        [tinyAsm "p1", tinyAsm "p2"] = .error .assertUneven ∧
    insertLineEntities [tinyEnt "e1", tinyEnt "e2", tinyEnt "e3", tinyEnt "e4"]
        [tinyAsm "p1", tinyAsm "p2"] =
      .ok ([{ tinyAsm "p1" with structure? := some [tinyEnt "e1", tinyEnt "e2"] },
            { tinyAsm "p2" with structure? := some [tinyEnt "e3", tinyEnt "e4"] }],
           []) := by
  constructor
  · exact (insert_line_entities_contiguous_blocks
      [tinyEnt "e1", tinyEnt "e2", tinyEnt "e3", tinyEnt "e4", tinyEnt "e5"]
      [tinyAsm "p1", tinyAsm "p2"] (by decide)).1 (by decide)
  · rfl

/-- Claim C5: inserting a child into a parent that lacks a Structure fails with
the typed no-structure condition; the builder then attaches a new Structure to
the parent, logs the promotion warning, retries, and the retry succeeds with
the child as the sole content; consequently the insertion loop of
`_insert_line_entities` never fails (a Part-typed parent never causes a
"no structure" parse failure). -/
theorem insert_promotion_recovers (parent entity : GenericEntity)
    (h : parent.structure? = none) :
    insertChild parent entity = .error .entityHasNoStructure ∧
    tryInsert parent entity =
      .ok ({ parent with structure? := some [entity] }, [noStructureWarning parent]) ∧
    (∀ (ents : List GenericEntity) (pp : Nat) (parents : List GenericEntity)
        (pidx : Nat), ∃ r, insertBlocks ents pp parents pidx = .ok r) := by
  refine ⟨insertChild_none parent entity h, tryInsert_none parent entity h, ?_⟩
  intro ents pp parents pidx
  obtain ⟨ws, hws⟩ := insertBlocks_eq ents pp parents pidx
  exact ⟨_, hws⟩

/-- Witness for C5: a structureless Part gains a Structure holding the child,
with the promotion warning logged. -/
theorem insert_promotion_recovers_witness :
    tryInsert (tinyEnt "P1") (tinyEnt "C1") =
      .ok ({ tinyEnt "P1" with structure? := some [tinyEnt "C1"] },
           ["Adding structure to entity P1 with status CO"]) :=
  ((insert_promotion_recovers (tinyEnt "P1") (tinyEnt "C1") rfl).2.1).trans (by rfl)

/-- Counterexample for claim C2: for a qty-2 row with refdes base `R1` the code
generates the designators `R1a`, `R1b` — every unit gets a letter suffix —
not `base, basea, …` = `R1, R1a` as the claim states. -/
theorem generate_qty_suffix_counterexample :
    (generateLineEntities pslParserLineReaderCfg qtyRow).map
        (fun es => es.map (fun e => e.refdes)) = .ok [some "R1a", some "R1b"] ∧
    (generateLineEntities pslParserLineReaderCfg qtyRow).map
        (fun es => es.map (fun e => e.refdes)) ≠ .ok [some "R1", some "R1a"] := by
  constructor
  · rfl
  · intro h
    rw [show (generateLineEntities pslParserLineReaderCfg qtyRow).map
        (fun es => es.map (fun e => e.refdes)) = .ok [some "R1a", some "R1b"]
      from rfl] at h
    injection h with h2
    exact absurd h2 (by decide)

/-- Claim C2 (amended): when the variant handles quantity expansion and the
row's qty field parses to N > 1, exactly N entities are generated, all sharing
the extracted identity and domain and the row's description, with reference
designators `base ++ chr(ord('a') + i)` for i = 0 .. N-1 (every unit is
suffixed, the first included), which are pairwise distinct when N ≤ 26. -/
theorem generate_qty_expansion (v : PslVariant) (line : Row) (N : Int)
    (qs c d base dsc ty : String)
    (hq : v.handleQty = true)
    (hid : extractIdent v line = .ok (some (.withDomain c d)))
    (hqs : line v.qtyName = some qs)
    (hN : pyInt? qs = some N)
    (h1 : 1 < N)
    (hbase : line v.refdesName = some base)
    (hdsc : line v.descName = some dsc)
    (hty : line v.typeName = some ty) :
    generateLineEntities v line =
      .ok ((List.range N.toNat).map (fun i =>
        { ident := c, desc := dsc,
          refdes := some (base ++ String.singleton (Char.ofNat ('a'.toNat + i))),
          domain := some d,
          structure? := if ty = v.typeAssembly then some [] else none })) ∧
    ((List.range N.toNat).map (fun i =>
        base ++ String.singleton (Char.ofNat ('a'.toNat + i)))).length = N.toNat ∧
    (N ≤ 26 →
      ((List.range N.toNat).map (fun i =>
        base ++ String.singleton (Char.ofNat ('a'.toNat + i)))).Nodup) := by
  refine ⟨?_, by simp, ?_⟩
  · unfold generateLineEntities
    rw [hid]
    simp only [bindE_ok]
    rw [hq]
    rw [if_pos rfl]
    rw [show lookupField line v.qtyName = .ok qs by unfold lookupField; rw [hqs]]
    simp only [bindE_ok]
    rw [hN]
    apply mapM_ok_of_forall
    intro i hi
    rw [show lookupField line v.refdesName = .ok base by unfold lookupField; rw [hbase]]
    simp only [bindE_ok]
    rw [show lookupField line v.descName = .ok dsc by unfold lookupField; rw [hdsc]]
    simp only [bindE_ok]
    rw [show lookupField line v.typeName = .ok ty by unfold lookupField; rw [hty]]
    simp only [bindE_ok]
    rw [if_pos h1]
  · intro h26
    apply List.Nodup.map_on ?_ (List.nodup_range _)
    intro x hx y hy hxy
    have hx2 : x < N.toNat := List.mem_range.1 hx
    have hy2 : y < N.toNat := List.mem_range.1 hy
    have ha : 'a'.toNat = 97 := rfl
    have hb : N.toNat ≤ 26 := by omega
    have hdata : base.data ++ [Char.ofNat ('a'.toNat + x)] =
        base.data ++ [Char.ofNat ('a'.toNat + y)] := congrArg String.data hxy
    have hchar : Char.ofNat ('a'.toNat + x) = Char.ofNat ('a'.toNat + y) := by
      have h2 := List.append_cancel_left hdata
      simpa using h2
    have hx3 := char_toNat_ofNat_valid ('a'.toNat + x) (by rw [ha]; omega)
    have hy3 := char_toNat_ofNat_valid ('a'.toNat + y) (by rw [ha]; omega)
    have h3 := congrArg Char.toNat hchar
    rw [hx3, hy3] at h3
    omega

/-- Witness for C2: the qty-2 row expands to two entities `R1a`, `R1b`
sharing identity, domain and description. -/
theorem generate_qty_expansion_witness :
    generateLineEntities pslParserLineReaderCfg qtyRow =
      .ok [{ ident := "BOLT-M3", desc := "Bolt", refdes := some "R1a",
             domain := some "cadfiles", structure? := none },
           { ident := "BOLT-M3", desc := "Bolt", refdes := some "R1b",
             domain := some "cadfiles", structure? := none }] ∧
    (1 : Int) < 2 :=
  ⟨((generate_qty_expansion pslParserLineReaderCfg qtyRow 2 "2" "BOLT-M3" "cadfiles"
      "R1" "Bolt" "Part" rfl rfl rfl rfl (by norm_num) rfl rfl rfl).1).trans (by rfl),
   by norm_num⟩

/-- Counterexample for claim C9: on the schema-abort path (header lacking the
required `refdes` column) the `TypeError` escapes `parse()` before
`psl.close()` is reached, so the handle is not released on that exit path —
the claim that every exit path releases it is false. -/
theorem parse_leaks_handle_counterexample :
    (parse pslParserCSV "leak.csv" leakRecords).closed = false ∧
    (parse pslParserCSV "leak.csv" leakRecords).result = .error .typeError ∧
    (parse pslParserCSV "leak.csv" leakRecords).validationErrors =
      [.requiredColumnMissing ["refdes"]] :=
  ⟨rfl, rfl, rfl⟩

/-- Claim C9 (amended): the file handle is released exactly on the
successful-completion exit of `parse()`; on the schema-abort path and on every
exception path it is never closed. -/
theorem parse_closed_iff_success (v : PslVariant) (path : String)
    (records : List (List String)) :
    (parse v path records).closed = true ↔
      ∃ o, (parse v path records).result = .ok o := by
  unfold parse
  rcases hrm : readMeta v.meta records with e | ⟨md, rest⟩
  · simp [hrm]
  · rcases hpm : processMeta v md with e | ⟨oi, od⟩
    · simp [hrm, hpm]
    · rcases rest with _ | ⟨columns, body⟩
      · simp [hrm, hpm]
      · by_cases hm : missingColumns v.expectedColumns columns = []
        · rcases hpl : processLines v columns (initialState (createOwner oi od)) body
            with e | st
          · simp [hrm, hpm, hm, hpl]
          · rcases hl : lookupAP st.activeParents (-1) with _ | (_ | ⟨o, orest⟩)
            · simp [hrm, hpm, hm, hpl, hl]
            · simp [hrm, hpm, hm, hpl, hl]
            · simp [hrm, hpm, hm, hpl, hl]
        · simp [hrm, hpm, hm]

/-- Witness for C9: a well-formed file parses successfully and the handle is
closed. -/
theorem parse_closed_iff_success_witness :
    (parse pslParserCSV "widget.csv" goodRecords).closed = true :=
  (parse_closed_iff_success pslParserCSV "widget.csv" goodRecords).2
    ⟨some goodRoot, rfl⟩

/-- Claim C6: for every successfully parsed file, the returned root entity's
identity equals the owner-identity ParseSpec template formatted with the
metadata values its field list names, and its description equals the
owner-description template likewise applied; the owner is created with a
fresh Structure and seeded as the sole occupant of the root slot of the
active-parent table. -/
theorem parse_root_identity_from_meta (v : PslVariant) (path : String)
    (records : List (List String)) (md : List (String × String))
    (rest : List (List String)) (I D : String) (root : GenericEntity)
    (hmeta : readMeta v.meta records = .ok (md, rest))
    (hpm : processMeta v md = .ok (I, D))
    (hok : (parse v path records).result = .ok (some root)) :
    root.ident = I ∧ root.desc = D ∧
    (createOwner I D).structure? = some [] ∧
    lookupAP (initialState (createOwner I D)).activeParents (-1) =
      some [createOwner I D] := by
  unfold parse at hok
  simp only [hmeta] at hok
  simp only [hpm] at hok
  rcases rest with _ | ⟨columns, body⟩
  · simp at hok
  · by_cases hm : missingColumns v.expectedColumns columns = []
    · simp only [hm] at hok
      rw [if_true] at hok
      rcases hpl : processLines v columns (initialState (createOwner I D)) body
          with e | st
      · simp [hpl] at hok
      · simp only [hpl] at hok
        have hinv : rootInv I D st := by
          refine processLines_rootInv I D v columns body _ st hpl
            ⟨?_, createOwner I D, [], by rfl, rfl, rfl⟩
          intro p hp
          simp only [initialState, List.mem_singleton] at hp
          rw [hp]
        obtain ⟨hkeys, o, orest, hroot, hoI, hoD⟩ := hinv
        simp only [hroot] at hok
        simp only [Except.ok.injEq, Option.some.injEq] at hok
        subst hok
        exact ⟨hoI, hoD, rfl, rfl⟩
    · simp [hm] at hok

/-- Witness for C6: the two-row good file parses to a root with identity
`"R1rA"` = `"{0}r{1}"` applied to (`ident`, `revision`) and description
`"Widget"`. -/
theorem parse_root_identity_from_meta_witness :
    (parse pslParserCSV "widget.csv" goodRecords).result = .ok (some goodRoot) ∧
    goodRoot.ident = "R1rA" ∧ goodRoot.desc = "Widget" ∧
    (createOwner "R1rA" "Widget").structure? = some [] := by
  have h := parse_root_identity_from_meta pslParserCSV "widget.csv" goodRecords
    [("ident", "R1"), ("revision", "A"), ("description", "Widget")]
    [["level", "DrawingNo", "Alt", "refdes", "SDrawingNo", "SAlt",
      "description", "type", "qty"],
     ["0", "", "", "A1", "D100", "X", "Top Assembly", "Assembly", "1"],
     ["1", "D100", "X", "B1", "D200", "Y", "Sub Part", "Part", "1"]]
    "R1rA" "Widget" goodRoot (by rfl) (by rfl) (by rfl)
  exact ⟨rfl, h.1, h.2.1, h.2.2.1⟩

/-- Claim C10: for a row whose level field parses to 0 the parent-consistency
assertion can never fire (the comparison guard applies only when level > 0);
and for the CSV variant the outcome of processing a level-0 row does not
depend on the values of the parent columns `DrawingNo`/`Alt` — empty,
non-empty or disagreeing with the owner's identity — provided both rows carry
the parent columns (so the extraction's own dictionary lookups succeed). -/
theorem process_line_level0_ignores_parent :
    (∀ (v : PslVariant) (st : ParserState) (line : Row) (lvs : String),
        line v.levelName = some lvs → pyInt? lvs = some 0 →
        processLine v st line ≠ .error .assertParentMismatch) ∧
    (∀ (st : ParserState) (l1 l2 : Row) (lvs : String),
        (∀ k, k ≠ "DrawingNo" → k ≠ "Alt" → l1 k = l2 k) →
        (l1 "DrawingNo").isSome → (l1 "Alt").isSome →
        (l2 "DrawingNo").isSome → (l2 "Alt").isSome →
        l1 "level" = some lvs → pyInt? lvs = some 0 →
        processLine pslParserCSV st l1 = processLine pslParserCSV st l2) := by
  constructor
  · exact fun v st line lvs h1 h2 =>
      processLine_level0_no_mismatch v st line lvs h1 h2
  · intro st l1 l2 lvs hagr hda1 hal1 hda2 hal2 hlvl hz
    have hparts : ∀ (l : Row), (l "DrawingNo").isSome → (l "Alt").isSome →
        ∀ opt ∈ pslParserCSV.parentIdentName, ∀ k ∈ opt.parts, (l k).isSome := by
      intro l hd ha opt hopt
      fin_cases hopt
      intro k hk
      fin_cases hk
      · exact hd
      · exact ha
    apply processLine_level0_congr pslParserCSV st l1 l2 lvs
      (hparts l1 hda1 hal1) (hparts l2 hda2 hal2)
    · exact hagr "level" (by decide) (by decide)
    · exact hlvl
    · exact hz
    · intro opt hopt
      fin_cases hopt <;> intro k hk
      · fin_cases hk
        · exact hagr "SDrawingNo" (by decide) (by decide)
        · exact hagr "SAlt" (by decide) (by decide)
      · fin_cases hk
        exact hagr "Description" (by decide) (by decide)
    · exact hagr "qty" (by decide) (by decide)
    · exact hagr "refdes" (by decide) (by decide)
    · exact hagr "description" (by decide) (by decide)
    · exact hagr "type" (by decide) (by decide)

/-- Witness for C10: a concrete level-0 row is processed identically whether
its parent column is empty or reads `GARBAGE`, and never with the
parent-mismatch error. -/
theorem process_line_level0_ignores_parent_witness :
    processLine pslParserCSV (initialState (createOwner "R1rA" "Widget"))
        level0RowA ≠ .error .assertParentMismatch ∧
    processLine pslParserCSV (initialState (createOwner "R1rA" "Widget"))
        level0RowA =
      processLine pslParserCSV (initialState (createOwner "R1rA" "Widget"))
        level0RowB := by
  constructor
  · exact process_line_level0_ignores_parent.1 pslParserCSV
      (initialState (createOwner "R1rA" "Widget")) level0RowA "0" rfl rfl
  · refine process_line_level0_ignores_parent.2
      (initialState (createOwner "R1rA" "Widget")) level0RowA level0RowB "0"
      ?_ (by rfl) (by rfl) (by rfl) (by rfl) rfl rfl
    intro k h1 h2
    simp only [level0RowB, if_neg h1]

end TendrilPsl
